import Mathlib

/-!
Shallow embedding of the Flask task service in `flask-app/app.py`.

The service keeps a global list `tasks` of task dictionaries and exposes
HTTP handlers over it.  We embed:
  - JSON values (the result of `request.get_json()`), with Python
    truthiness (`if not data: ...`) made explicit;
  - the task record and the global collection as a `List Task`;
  - each route handler as a function from its inputs and the current
    collection to a response paired with the new collection.

`request.get_json()` (default arguments) has three relevant outcomes,
modelled by `GetJson`:
  - the body parses as JSON: the parsed value (note that JSON `null`,
    `false`, `0`, `""`, `[]`, `{}` all parse to Python-falsy values);
  - it returns `None` (on Flask versions where a request without a JSON
    content type yields `None` rather than an exception);
  - it raises (`BadRequest` on a malformed JSON body — stable across
    Flask versions — or `UnsupportedMediaType` on newer Flask for a
    missing JSON content type).  Each handler body is wrapped in
    `try/except Exception`, so a raise is answered by the handler's
    `except` branch: 500 `{"error": "Internal server error"}`.

JSON numbers are embedded as `Int`: no claim involves non-integer
numerics.  Parsed JSON objects have distinct keys (Python dicts), so the
first-match lookup `jsonGet` agrees with Python dict lookup.
-/

namespace App

/-- JSON values as produced by `request.get_json()`. -/
inductive Json where
  | null
  | bool (b : Bool)
  | num (n : Int)
  | str (s : String)
  | arr (elems : List Json)
  | obj (kvs : List (String × Json))

/-- Python truthiness of a JSON-decoded value: `None`, `False`, `0`, `""`,
`[]` and `{}` are falsy, everything else is truthy. -/
def pyTruthy : Json → Bool
  | .null => false
  | .bool b => b
  | .num n => n != 0
  | .str s => s != ""
  | .arr elems => !elems.isEmpty
  | .obj kvs => !kvs.isEmpty

/-- Python `data.get(k)` / `k in data` on a parsed JSON object: lookup of
the first (only, since dict keys are distinct) binding of key `k`. -/
def jsonGet (kvs : List (String × Json)) (k : String) : Option Json :=
  (kvs.find? (fun kv => kv.1 == k)).map (fun kv => kv.2)

/-- Char-list comparison used for Python substring membership. -/
def leadMatch : List Char → List Char → Bool
  | [], _ => true
  | _ :: _, [] => false
  | a :: as, b :: bs => a == b && leadMatch as bs

def strMemberAux (p : List Char) : List Char → Bool
  | [] => leadMatch p []
  | c :: rest => leadMatch p (c :: rest) || strMemberAux p rest

/-- Python `pat in s` on strings: substring membership. -/
def strMember (pat s : String) : Bool :=
  strMemberAux pat.toList s.toList

/-- Python `"title" in data` on a parsed JSON list: `==` against each
element, which is true only for the equal string. -/
def listHasStrTitle : List Json → Bool
  | [] => false
  | .str s :: rest => s == "title" || listHasStrTitle rest
  | _ :: rest => listHasStrTitle rest

/-- Whether a JSON value is the literal `true` (used to state the count
of tasks whose `completed` field IS `true`, as opposed to truthy). -/
def isJsonTrue : Json → Bool
  | .bool true => true
  | _ => false

/-- One task dictionary.  `title`, `description` and `completed` hold
whatever JSON the client sent (the code never validates their types);
`created_at` is the timestamp string stamped at creation. -/
structure Task where
  id : Nat
  title : Json
  description : Json
  completed : Json
  created_at : String

/-- `jsonify(task)`: the task dictionary as a JSON object. -/
def taskJson (t : Task) : Json :=
  .obj [("id", .num t.id), ("title", t.title), ("description", t.description),
        ("completed", t.completed), ("created_at", .str t.created_at)]

/-- An HTTP response: status code and JSON body. -/
structure Resp where
  status : Nat
  body : Json

/-- Lookup of a field in an object-shaped response body. -/
def bodyField (r : Resp) (k : String) : Option Json :=
  match r.body with
  | .obj kvs => jsonGet kvs k
  | _ => none

def internalError : Resp := ⟨500, .obj [("error", .str "Internal server error")]⟩
def titleRequired : Resp := ⟨400, .obj [("error", .str "Title is required")]⟩
def taskNotFound : Resp := ⟨404, .obj [("error", .str "Task not found")]⟩
def noDataProvided : Resp := ⟨400, .obj [("error", .str "No data provided")]⟩

/-- Outcome of `request.get_json()` for the incoming request body. -/
inductive GetJson where
  | parsed (d : Json)
  | noBody
  | raises

/-- The two tasks seeded into the module-level `tasks` list. -/
def seedTasks : List Task :=
  [ { id := 1, title := .str "Learn Docker",
      description := .str "Understand containerization",
      completed := .bool false, created_at := "2024-01-01T00:00:00Z" },
    { id := 2, title := .str "Learn Kubernetes",
      description := .str "Master container orchestration",
      completed := .bool false, created_at := "2024-01-02T00:00:00Z" } ]

/-- The id given to a new task:
`max([task["id"] for task in tasks], default=0) + 1`. -/
def nextId (ts : List Task) : Nat :=
  (ts.map Task.id).foldr max 0 + 1

/-- Handler `get_tasks` (GET /tasks): returns all tasks and their count. -/
def get_tasks (ts : List Task) : Resp :=
  ⟨200, .obj [("tasks", .arr (ts.map taskJson)), ("count", .num ts.length)]⟩

/-- Handler `get_task` (GET /tasks/<id>): first task with matching id,
else 404. -/
def get_task (ts : List Task) (task_id : Nat) : Resp :=
  match ts.find? (fun t => t.id == task_id) with
  | some t => ⟨200, taskJson t⟩
  | none => taskNotFound

/-- Handler `create_task` (POST /tasks).  `now` is the value of
`datetime.utcnow().isoformat() + "Z"`.  Control flow of the source:
a raise from `get_json` lands in the catch-all `except` (500); then
`if not data or 'title' not in data` answers 400; otherwise the new task
is built and appended.  On a truthy non-object body, Python evaluates
`'title' not in data` — membership works on lists (element equality) and
strings (substring) but raises `TypeError` on numbers and booleans, and
`data["title"]` raises `TypeError` on lists and strings — every raise
again landing in the catch-all `except` (500). -/
def create_task (body : GetJson) (now : String) (ts : List Task) :
    Resp × List Task :=
  match body with
  | .raises => (internalError, ts)
  | .noBody => (titleRequired, ts)
  | .parsed d =>
    if pyTruthy d = false then (titleRequired, ts)
    else
      match d with
      | .obj kvs =>
        match jsonGet kvs "title" with
        | none => (titleRequired, ts)
        | some title =>
          let newTask : Task :=
            { id := nextId ts, title := title,
              description := (jsonGet kvs "description").getD (.str ""),
              completed := .bool false, created_at := now }
          (⟨201, taskJson newTask⟩, ts ++ [newTask])
      | .arr elems =>
        if listHasStrTitle elems then (internalError, ts)
        else (titleRequired, ts)
      | .str s =>
        if strMember "title" s then (internalError, ts)
        else (titleRequired, ts)
      | _ => (internalError, ts)

/-- The three field assignments of `update_task`:
`task[k] = data.get(k, task[k])` for title, description, completed. -/
def applyPatch (kvs : List (String × Json)) (t : Task) : Task :=
  { t with
    title := (jsonGet kvs "title").getD t.title,
    description := (jsonGet kvs "description").getD t.description,
    completed := (jsonGet kvs "completed").getD t.completed }

/-- Mutating the dictionary object found by `next(...)` in place: the
first task whose id matches is replaced, the rest of the list is kept. -/
def replaceFirst (ts : List Task) (task_id : Nat) (t2 : Task) : List Task :=
  match ts with
  | [] => []
  | t :: rest =>
    if t.id == task_id then t2 :: rest else t :: replaceFirst rest task_id t2

/-- Handler `update_task` (PUT /tasks/<id>).  The source finds the task
BEFORE reading the body, so an absent id answers 404 whatever the body
is.  Then `if not data` answers 400, and the three `data.get` calls
patch the found dictionary in place.  `data.get` on a truthy non-dict
raises `AttributeError`, landing in the catch-all `except` (500) before
any field was assigned. -/
def update_task (task_id : Nat) (body : GetJson) (ts : List Task) :
    Resp × List Task :=
  match ts.find? (fun t => t.id == task_id) with
  | none => (taskNotFound, ts)
  | some t =>
    match body with
    | .raises => (internalError, ts)
    | .noBody => (noDataProvided, ts)
    | .parsed d =>
      if pyTruthy d = false then (noDataProvided, ts)
      else
        match d with
        | .obj kvs =>
          let t2 := applyPatch kvs t
          (⟨200, taskJson t2⟩, replaceFirst ts task_id t2)
        | _ => (internalError, ts)

/-- Handler `delete_task` (DELETE /tasks/<id>): 404 if no task matches,
else `tasks = [task for task in tasks if task["id"] != task_id]`. -/
def delete_task (task_id : Nat) (ts : List Task) : Resp × List Task :=
  match ts.find? (fun t => t.id == task_id) with
  | none => (taskNotFound, ts)
  | some _ =>
    (⟨200, .obj [("message",
        .str ("Task " ++ toString task_id ++ " deleted successfully"))]⟩,
     ts.filter (fun t => t.id != task_id))

/-- `len([task for task in tasks])`. -/
def total_tasks (ts : List Task) : Nat := ts.length

/-- `len([task for task in tasks if task["completed"]])`: Python counts
the TRUTHY `completed` values. -/
def completed_tasks (ts : List Task) : Nat :=
  (ts.filter (fun t => pyTruthy t.completed)).length

/-- `len([task for task in tasks if not task["completed"]])`. -/
def pending_tasks (ts : List Task) : Nat :=
  (ts.filter (fun t => !pyTruthy t.completed)).length

/-- Handler `metrics` (GET /metrics). -/
def metrics (now : String) (ts : List Task) : Resp :=
  ⟨200, .obj [("total_tasks", .num (total_tasks ts)),
              ("completed_tasks", .num (completed_tasks ts)),
              ("pending_tasks", .num (pending_tasks ts)),
              ("timestamp", .str now)]⟩

/-- One inbound request against the task routes. -/
inductive Request where
  | list
  | get (task_id : Nat)
  | create (body : GetJson) (now : String)
  | update (task_id : Nat) (body : GetJson)
  | delete (task_id : Nat)
  | metrics (now : String)

/-- The router: dispatches a request against the current collection.
Read-only handlers leave the collection as it was. -/
def step : Request → List Task → Resp × List Task
  | .list, ts => (get_tasks ts, ts)
  | .get i, ts => (get_task ts i, ts)
  | .create b now, ts => create_task b now ts
  | .update i b, ts => update_task i b ts
  | .delete i, ts => delete_task i ts
  | .metrics now, ts => (metrics now ts, ts)

/-- Collection states reachable from the seeded list by any sequence of
create / update / delete requests. -/
inductive Reachable : List Task → Prop where
  | seed : Reachable seedTasks
  | create (body : GetJson) (now : String) {ts : List Task} :
      Reachable ts → Reachable (create_task body now ts).2
  | update (task_id : Nat) (body : GetJson) {ts : List Task} :
      Reachable ts → Reachable (update_task task_id body ts).2
  | delete (task_id : Nat) {ts : List Task} :
      Reachable ts → Reachable (delete_task task_id ts).2

/-! ## Helper lemmas -/

theorem le_foldr_max (l : List Nat) (a : Nat) (h : a ∈ l) : a ≤ l.foldr max 0 := by
  induction l with
  | nil => cases h
  | cons b l ih =>
    rcases List.mem_cons.mp h with rfl | h2
    · exact le_max_left _ _
    · exact le_trans (ih h2) (le_max_right _ _)

theorem foldr_max_mem (l : List Nat) (h : l ≠ []) : l.foldr max 0 ∈ l := by
  induction l with
  | nil => exact absurd rfl h
  | cons b l ih =>
    cases l with
    | nil => simp
    | cons c m =>
      rcases max_choice b ((c :: m).foldr max 0) with e | e
      · show max b ((c :: m).foldr max 0) ∈ b :: c :: m
        rw [e]; exact List.mem_cons_self _ _
      · show max b ((c :: m).foldr max 0) ∈ b :: c :: m
        rw [e]; exact List.mem_cons_of_mem _ (ih (by simp))

theorem find?_decomp {α : Type} (p : α → Bool) (l : List α) (a : α)
    (h : l.find? p = some a) :
    ∃ pre post, l = pre ++ a :: post ∧ (∀ u ∈ pre, p u = false) ∧ p a = true := by
  induction l with
  | nil => simp [List.find?] at h
  | cons b l ih =>
    by_cases hb : p b = true
    · rw [List.find?_cons_of_pos _ hb] at h
      injection h with h2
      subst h2
      exact ⟨[], l, rfl, fun u hu => absurd hu (List.not_mem_nil u), hb⟩
    · rw [List.find?_cons_of_neg _ hb] at h
      obtain ⟨pre, post, e, hpre, hpa⟩ := ih h
      refine ⟨b :: pre, post, by rw [e, List.cons_append], ?_, hpa⟩
      intro u hu
      rcases List.mem_cons.mp hu with rfl | h2
      · simpa using hb
      · exact hpre u h2

theorem replaceFirst_append (i : Nat) (t2 : Task) (pre : List Task) (t : Task)
    (post : List Task) (hpre : ∀ u ∈ pre, (u.id == i) = false)
    (ht : (t.id == i) = true) :
    replaceFirst (pre ++ t :: post) i t2 = pre ++ t2 :: post := by
  induction pre with
  | nil => simp [replaceFirst, ht]
  | cons b pre ih =>
    have hb : (b.id == i) = false := hpre b (List.mem_cons_self _ _)
    simp [replaceFirst, hb]
    exact ih (fun u hu => hpre u (List.mem_cons_of_mem _ hu))

theorem replaceFirst_map_id (i : Nat) (t2 : Task) (h : t2.id = i) :
    ∀ ts : List Task, (replaceFirst ts i t2).map Task.id = ts.map Task.id
  | [] => rfl
  | t :: rest => by
    by_cases ht : (t.id == i) = true
    · have hti : t.id = i := by simpa using ht
      simp [replaceFirst, ht, h, hti]
    · simp [replaceFirst, ht, replaceFirst_map_id i t2 h rest]

/-- The collection after `create_task`: unchanged, or one task appended
whose id is `nextId`. -/
theorem create_task_state (body : GetJson) (now : String) (ts : List Task) :
    (create_task body now ts).2 = ts ∨
    ∃ t : Task, t.id = nextId ts ∧ (create_task body now ts).2 = ts ++ [t] := by
  cases body with
  | raises => exact Or.inl rfl
  | noBody => exact Or.inl rfl
  | parsed d =>
    by_cases hd : pyTruthy d = false
    · left; simp [create_task, hd]
    · cases d with
      | obj kvs =>
        cases hj : jsonGet kvs "title" with
        | none => left; simp [create_task, hd, hj]
        | some v =>
          right
          exact ⟨{ id := nextId ts, title := v,
                   description := (jsonGet kvs "description").getD (.str ""),
                   completed := .bool false, created_at := now },
                 rfl, by simp [create_task, hd, hj]⟩
      | arr elems =>
        left; by_cases he : listHasStrTitle elems <;> simp [create_task, hd, he]
      | str s =>
        left; by_cases he : strMember "title" s <;> simp [create_task, hd, he]
      | null => left; simp [create_task, hd]
      | bool b => left; simp [create_task, hd]
      | num n => left; simp [create_task, hd]

/-- `update_task` never changes the sequence of ids. -/
theorem update_task_map_id (i : Nat) (body : GetJson) (ts : List Task) :
    (update_task i body ts).2.map Task.id = ts.map Task.id := by
  cases hf : ts.find? (fun t => t.id == i) with
  | none => simp [update_task, hf]
  | some t =>
    have hti : t.id = i := by simpa using List.find?_some hf
    cases body with
    | raises => simp [update_task, hf]
    | noBody => simp [update_task, hf]
    | parsed d =>
      by_cases hd : pyTruthy d = false
      · simp [update_task, hf, hd]
      · cases d with
        | obj kvs =>
          simp [update_task, hf, hd]
          exact replaceFirst_map_id i _ (by simp [applyPatch, hti]) ts
        | null => simp [update_task, hf, hd]
        | bool b => simp [update_task, hf, hd]
        | num n => simp [update_task, hf, hd]
        | str s => simp [update_task, hf, hd]
        | arr elems => simp [update_task, hf, hd]

/-- The collection after `delete_task`: unchanged, or filtered. -/
theorem delete_task_state (i : Nat) (ts : List Task) :
    (delete_task i ts).2 = ts ∨
    (delete_task i ts).2 = ts.filter (fun t => t.id != i) := by
  cases hf : ts.find? (fun t => t.id == i) with
  | none => left; simp [delete_task, hf]
  | some t => right; simp [delete_task, hf]

/-! ## Claim theorems -/

/-- C1: a create request whose body is a JSON object carrying a non-empty
title answers 201 with the new record, which has `completed = false`, the
given title, the given description (empty string when omitted), is
appended at the end of storage, and whose id is one more than the largest
existing id (so 1 on an empty collection). -/
theorem create_assigns_next_id (kvs : List (String × Json)) (s now : String)
    (ts : List Task) (ht : jsonGet kvs "title" = some (.str s)) (_hs : s ≠ "") :
    ∃ newTask : Task,
      create_task (.parsed (.obj kvs)) now ts
        = (⟨201, taskJson newTask⟩, ts ++ [newTask]) ∧
      newTask.title = .str s ∧
      (∀ v, jsonGet kvs "description" = some v → newTask.description = v) ∧
      (jsonGet kvs "description" = none → newTask.description = .str "") ∧
      newTask.completed = .bool false ∧
      newTask.created_at = now ∧
      (∀ u ∈ ts, u.id + 1 ≤ newTask.id) ∧
      (ts = [] → newTask.id = 1) ∧
      (ts ≠ [] → ∃ u, u ∈ ts ∧ newTask.id = u.id + 1) := by
  have he : kvs.isEmpty = false := by
    cases kvs with
    | nil => simp [jsonGet] at ht
    | cons a l => rfl
  refine ⟨{ id := nextId ts, title := .str s,
            description := (jsonGet kvs "description").getD (.str ""),
            completed := .bool false, created_at := now },
          ?_, rfl, ?_, ?_, rfl, rfl, ?_, ?_, ?_⟩
  · simp [create_task, pyTruthy, he, ht]
  · intro v hv
    show (jsonGet kvs "description").getD (.str "") = v
    rw [hv]; rfl
  · intro hv
    show (jsonGet kvs "description").getD (.str "") = .str ""
    rw [hv]; rfl
  · intro u hu
    have hb : u.id ≤ (ts.map Task.id).foldr max 0 :=
      le_foldr_max _ _ (List.mem_map_of_mem Task.id hu)
    show u.id + 1 ≤ nextId ts
    simpa [nextId] using Nat.succ_le_succ hb
  · intro e; subst e; rfl
  · intro hne
    have hm : ts.map Task.id ≠ [] := by
      cases ts with
      | nil => exact absurd rfl hne
      | cons a l => simp
    obtain ⟨u, hu, hid⟩ := List.mem_map.mp (foldr_max_mem _ hm)
    refine ⟨u, hu, ?_⟩
    show nextId ts = u.id + 1
    simp [nextId, hid]

/-- C1 witness: creating `{"title": "Test Task", "description": "x"}` over
the seed collection. -/
theorem create_assigns_next_id_witness :
    ("Test Task" : String) ≠ "" ∧
    ∃ newTask : Task,
      create_task
          (.parsed (.obj [("title", .str "Test Task"), ("description", .str "x")]))
          "2024-01-03T00:00:00Z" seedTasks
        = (⟨201, taskJson newTask⟩, seedTasks ++ [newTask]) ∧
      newTask.title = .str "Test Task" ∧ newTask.completed = .bool false := by
  refine ⟨by decide, ?_⟩
  obtain ⟨nt, he, h1, _, _, hc, _, _, _, _⟩ :=
    create_assigns_next_id [("title", .str "Test Task"), ("description", .str "x")]
      "Test Task" "2024-01-03T00:00:00Z" seedTasks rfl (by decide)
  exact ⟨nt, he, h1, hc⟩

/-- C3 counterexample: a create request whose body has an EMPTY title is
not rejected — the code only tests key presence — so it answers 201 and
appends a task (collection grows from 2 to 3). -/
theorem create_empty_title_cx :
    (create_task (.parsed (.obj [("title", .str "")]))
        "2024-01-03T00:00:00Z" seedTasks).1.status = 201 ∧
    (create_task (.parsed (.obj [("title", .str "")]))
        "2024-01-03T00:00:00Z" seedTasks).2.length = 3 ∧
    seedTasks.length = 2 :=
  ⟨rfl, rfl, rfl⟩

/-- C3 amended: a create request whose body yields no data (`get_json`
returned `None`), or parses to a Python-falsy value (such as `{}`), or
parses to an object without a `"title"` key, answers 400
`{"error": "Title is required"}` and leaves the collection unchanged;
a present-but-empty title is NOT rejected. -/
theorem create_missing_title_rejected (body : GetJson) (now : String)
    (ts : List Task)
    (h : body = .noBody ∨
         (∃ d, body = .parsed d ∧ pyTruthy d = false) ∨
         (∃ kvs, body = .parsed (.obj kvs) ∧ jsonGet kvs "title" = none)) :
    create_task body now ts = (titleRequired, ts) := by
  rcases h with rfl | ⟨d, rfl, hd⟩ | ⟨kvs, rfl, hk⟩
  · rfl
  · simp [create_task, hd]
  · by_cases he : pyTruthy (.obj kvs) = false
    · simp [create_task, he]
    · simp [create_task, he, hk]

/-- C3 witness: creating `{"description": "no title"}` over the seed
collection answers 400 and changes nothing. -/
theorem create_missing_title_rejected_witness :
    create_task (.parsed (.obj [("description", .str "no title")]))
        "2024-01-03T00:00:00Z" seedTasks
      = (titleRequired, seedTasks) :=
  create_missing_title_rejected _ _ _ (Or.inr (Or.inr ⟨_, rfl, rfl⟩))

/-- C7 counterexample: a body that `request.get_json()` fails to parse is
answered with HTTP 500 (the catch-all `except` branch), not 400, on both
create and update of an existing id. -/
theorem malformed_json_cx :
    (create_task .raises "2024-01-03T00:00:00Z" seedTasks).1.status = 500 ∧
    (update_task 1 .raises seedTasks).1.status = 500 :=
  ⟨rfl, rfl⟩

/-- C7 amended: an unparseable body makes `get_json` raise, which the
catch-all `except` turns into 500 `{"error": "Internal server error"}`;
the collection is always left unchanged, and update answers 404 instead
when the id is absent (the existence check runs before the body is
read). -/
theorem malformed_json_behavior (now : String) (i : Nat) (ts : List Task) :
    create_task .raises now ts = (internalError, ts) ∧
    (update_task i .raises ts).2 = ts ∧
    ((update_task i .raises ts).1 = taskNotFound ∨
      (update_task i .raises ts).1 = internalError) ∧
    internalError.status = 500 := by
  refine ⟨rfl, ?_, ?_, rfl⟩
  · cases hf : ts.find? (fun t => t.id == i) <;> simp [update_task, hf]
  · cases hf : ts.find? (fun t => t.id == i) with
    | none => left; simp [update_task, hf]
    | some t => right; simp [update_task, hf]

/-- C8: GET /tasks does not change the collection, a second call with no
intervening mutation returns the identical response, and the body's
`count` field equals the collection size with `tasks` listing the whole
collection in storage order. -/
theorem list_tasks_idempotent (ts : List Task) :
    (step .list ts).2 = ts ∧
    step .list (step .list ts).2 = step .list ts ∧
    bodyField (step .list ts).1 "count" = some (.num ts.length) ∧
    bodyField (step .list ts).1 "tasks" = some (.arr (ts.map taskJson)) :=
  ⟨rfl, rfl, rfl, rfl⟩

/-- C9: PUT on an id that is not in the collection answers 404
`{"error": "Task not found"}` whatever the request body is — parsed,
missing or unparseable — leaving the collection unchanged; in particular
the 400 "No data provided" answer can never arise for an absent id. -/
theorem update_absent_id_notfound (i : Nat) (ts : List Task) (body : GetJson)
    (h : ts.find? (fun t => t.id == i) = none) :
    update_task i body ts = (taskNotFound, ts) ∧
    (update_task i body ts).1 ≠ noDataProvided := by
  have e : update_task i body ts = (taskNotFound, ts) := by
    simp [update_task, h]
  refine ⟨e, ?_⟩
  rw [e]
  show (taskNotFound : Resp) ≠ noDataProvided
  intro hc
  have h2 := congrArg Resp.status hc
  simp [taskNotFound, noDataProvided] at h2

/-- C9 witness: PUT /tasks/999 with an empty body over the seed
collection. -/
theorem update_absent_id_notfound_witness :
    seedTasks.find? (fun t => t.id == 999) = none ∧
    update_task 999 .noBody seedTasks = (taskNotFound, seedTasks) :=
  ⟨rfl, (update_absent_id_notfound 999 seedTasks .noBody rfl).1⟩

/-- C10: PUT on an existing id whose body parses to the empty JSON object
`{}` answers 400 `{"error": "No data provided"}` — `not data` is true for
an empty dict — and leaves the collection unchanged. -/
theorem update_empty_patch_rejected (i : Nat) (ts : List Task) (t : Task)
    (h : ts.find? (fun u => u.id == i) = some t) :
    update_task i (.parsed (.obj [])) ts = (noDataProvided, ts) := by
  simp [update_task, h, pyTruthy]

/-- C10 witness: PUT /tasks/1 with body `{}` over the seed collection. -/
theorem update_empty_patch_rejected_witness :
    seedTasks.find? (fun u => u.id == 1)
      = some ⟨1, .str "Learn Docker", .str "Understand containerization",
              .bool false, "2024-01-01T00:00:00Z"⟩ ∧
    update_task 1 (.parsed (.obj [])) seedTasks = (noDataProvided, seedTasks) :=
  ⟨rfl, update_empty_patch_rejected 1 seedTasks _ rfl⟩

/-- C2 counterexample: the collection reached from the seeds by
`PUT /tasks/1 {"completed": "yes"}` has `completed_tasks = 1` (the code
counts Python-TRUTHY values) although no task's completed field equals
the JSON literal `true`, and `pending_tasks = 1` although two tasks'
completed fields differ from `true`. -/
theorem metrics_truthy_cx :
    Reachable
      (update_task 1 (.parsed (.obj [("completed", .str "yes")])) seedTasks).2 ∧
    completed_tasks
      (update_task 1 (.parsed (.obj [("completed", .str "yes")])) seedTasks).2 = 1 ∧
    ((update_task 1 (.parsed (.obj [("completed", .str "yes")])) seedTasks).2.countP
        (fun t => isJsonTrue t.completed)) = 0 ∧
    pending_tasks
      (update_task 1 (.parsed (.obj [("completed", .str "yes")])) seedTasks).2 = 1 ∧
    ((update_task 1 (.parsed (.obj [("completed", .str "yes")])) seedTasks).2.countP
        (fun t => !isJsonTrue t.completed)) = 2 :=
  ⟨Reachable.update 1 _ Reachable.seed, rfl, rfl, rfl, rfl⟩

/-- C2 amended: on every reachable collection, metrics reports
`total_tasks` = collection size, `completed_tasks` = number of tasks
whose completed field is Python-TRUTHY, `pending_tasks` = number whose
completed field is falsy, and `total_tasks` always equals
`completed_tasks + pending_tasks`. -/
theorem metrics_invariant (now : String) (ts : List Task) (_h : Reachable ts) :
    bodyField (metrics now ts) "total_tasks" = some (.num ts.length) ∧
    bodyField (metrics now ts) "completed_tasks"
      = some (.num (ts.countP (fun t => pyTruthy t.completed))) ∧
    bodyField (metrics now ts) "pending_tasks"
      = some (.num (ts.countP (fun t => !pyTruthy t.completed))) ∧
    total_tasks ts = completed_tasks ts + pending_tasks ts := by
  have hc : completed_tasks ts = ts.countP (fun t => pyTruthy t.completed) := by
    simp [completed_tasks, List.countP_eq_length_filter]
  have hp : pending_tasks ts = ts.countP (fun t => !pyTruthy t.completed) := by
    simp [pending_tasks, List.countP_eq_length_filter]
  refine ⟨rfl, ?_, ?_, ?_⟩
  · show some (Json.num (completed_tasks ts)) = _
    rw [hc]
  · show some (Json.num (pending_tasks ts)) = _
    rw [hp]
  · exact List.length_eq_length_filter_add _

/-- C2 witness: metrics over the seed collection. -/
theorem metrics_invariant_witness :
    bodyField (metrics "2024-01-03T00:00:00Z" seedTasks) "total_tasks"
      = some (.num seedTasks.length) ∧
    total_tasks seedTasks = completed_tasks seedTasks + pending_tasks seedTasks :=
  ⟨(metrics_invariant "2024-01-03T00:00:00Z" seedTasks Reachable.seed).1,
   (metrics_invariant "2024-01-03T00:00:00Z" seedTasks Reachable.seed).2.2.2⟩

/-- C4: PUT on an existing id with a non-empty JSON object patch answers
200 with the updated task: fields named in the patch take the patch
value, fields absent keep their prior value, id and created_at are
untouched, and only the (first) matching task changes — every other
task keeps its position and value. -/
theorem update_partial_patch (i : Nat) (kvs : List (String × Json))
    (ts : List Task) (t : Task)
    (hf : ts.find? (fun u => u.id == i) = some t) (hk : kvs ≠ []) :
    ∃ t2 : Task,
      update_task i (.parsed (.obj kvs)) ts
        = (⟨200, taskJson t2⟩, replaceFirst ts i t2) ∧
      t2.id = t.id ∧ t2.created_at = t.created_at ∧
      (∀ v, jsonGet kvs "title" = some v → t2.title = v) ∧
      (jsonGet kvs "title" = none → t2.title = t.title) ∧
      (∀ v, jsonGet kvs "description" = some v → t2.description = v) ∧
      (jsonGet kvs "description" = none → t2.description = t.description) ∧
      (∀ v, jsonGet kvs "completed" = some v → t2.completed = v) ∧
      (jsonGet kvs "completed" = none → t2.completed = t.completed) ∧
      ∃ pre post, ts = pre ++ t :: post ∧ (∀ u ∈ pre, (u.id == i) = false) ∧
        replaceFirst ts i t2 = pre ++ t2 :: post := by
  have he : kvs.isEmpty = false := by
    cases kvs with
    | nil => exact absurd rfl hk
    | cons a l => rfl
  refine ⟨applyPatch kvs t, ?_, rfl, rfl, ?_, ?_, ?_, ?_, ?_, ?_, ?_⟩
  · simp [update_task, hf, pyTruthy, he]
  · intro v hv
    show (jsonGet kvs "title").getD t.title = v
    rw [hv]; rfl
  · intro hv
    show (jsonGet kvs "title").getD t.title = t.title
    rw [hv]; rfl
  · intro v hv
    show (jsonGet kvs "description").getD t.description = v
    rw [hv]; rfl
  · intro hv
    show (jsonGet kvs "description").getD t.description = t.description
    rw [hv]; rfl
  · intro v hv
    show (jsonGet kvs "completed").getD t.completed = v
    rw [hv]; rfl
  · intro hv
    show (jsonGet kvs "completed").getD t.completed = t.completed
    rw [hv]; rfl
  · obtain ⟨pre, post, e, hpre, hpt⟩ := find?_decomp _ ts t hf
    refine ⟨pre, post, e, hpre, ?_⟩
    rw [e]
    exact replaceFirst_append i _ pre t post hpre hpt

/-- C4 witness: PUT /tasks/1 with `{"title": "Updated Task",
"completed": true}` over the seed collection: description and created_at
survive unchanged. -/
theorem update_partial_patch_witness :
    seedTasks.find? (fun u => u.id == 1)
      = some ⟨1, .str "Learn Docker", .str "Understand containerization",
              .bool false, "2024-01-01T00:00:00Z"⟩ ∧
    ∃ t2 : Task,
      update_task 1 (.parsed (.obj [("title", .str "Updated Task"),
          ("completed", .bool true)])) seedTasks
        = (⟨200, taskJson t2⟩, replaceFirst seedTasks 1 t2) ∧
      t2.title = .str "Updated Task" ∧ t2.completed = .bool true ∧
      t2.description = .str "Understand containerization" ∧
      t2.created_at = "2024-01-01T00:00:00Z" := by
  refine ⟨rfl, ?_⟩
  obtain ⟨t2, he, _, hca, hts, _, _, hdn, hcs, _, _⟩ :=
    update_partial_patch 1
      [("title", .str "Updated Task"), ("completed", .bool true)] seedTasks
      ⟨1, .str "Learn Docker", .str "Understand containerization",
       .bool false, "2024-01-01T00:00:00Z"⟩ rfl (List.cons_ne_nil _ _)
  exact ⟨t2, he, hts _ rfl, hcs _ rfl, (hdn rfl).trans rfl, hca.trans rfl⟩

/-- C5: DELETE on a present id answers 200 with the deletion message and
removes exactly that task (under distinct ids), after which GET answers
404 and a second DELETE answers 404; DELETE on an absent id answers 404
and changes nothing. -/
theorem delete_semantics (i : Nat) (ts : List Task) :
    (∀ t, ts.find? (fun u => u.id == i) = some t →
      delete_task i ts
        = (⟨200, .obj [("message",
              .str ("Task " ++ toString i ++ " deleted successfully"))]⟩,
           ts.filter (fun u => u.id != i)) ∧
      get_task (delete_task i ts).2 i = taskNotFound ∧
      delete_task i (delete_task i ts).2 = (taskNotFound, (delete_task i ts).2) ∧
      ((ts.map Task.id).Nodup →
        ∃ pre post, ts = pre ++ t :: post ∧ (delete_task i ts).2 = pre ++ post)) ∧
    (ts.find? (fun u => u.id == i) = none →
      delete_task i ts = (taskNotFound, ts)) := by
  constructor
  · intro t hf
    have e1 : delete_task i ts
        = (⟨200, .obj [("message",
              .str ("Task " ++ toString i ++ " deleted successfully"))]⟩,
           ts.filter (fun u => u.id != i)) := by
      simp [delete_task, hf]
    have e2 : (delete_task i ts).2 = ts.filter (fun u => u.id != i) := by rw [e1]
    have hnone : (ts.filter (fun u => u.id != i)).find? (fun u => u.id == i)
        = none := by
      rw [List.find?_eq_none]
      intro x hx
      have hx2 := (List.mem_filter.mp hx).2
      simp at hx2 ⊢
      exact hx2
    refine ⟨e1, ?_, ?_, ?_⟩
    · rw [e2]
      simp [get_task, hnone, taskNotFound]
    · rw [e2]
      simp [delete_task, hnone]
    · intro hnd
      obtain ⟨pre, post, e, hpre, hpt⟩ := find?_decomp _ ts t hf
      have hti : t.id = i := by simpa using hpt
      refine ⟨pre, post, e, ?_⟩
      rw [e2, e, List.filter_append]
      have hfpre : pre.filter (fun u => u.id != i) = pre := by
        rw [List.filter_eq_self]
        intro u hu
        simp [bne, hpre u hu]
      have hft : (t :: post).filter (fun u => u.id != i)
          = post.filter (fun u => u.id != i) := by
        simp [List.filter_cons, bne, hti]
      have hipost : t.id ∉ post.map Task.id := by
        rw [e, List.map_append, List.map_cons] at hnd
        exact (List.nodup_cons.mp ((List.nodup_append.mp hnd).2.1)).1
      have hfpost : post.filter (fun u => u.id != i) = post := by
        rw [List.filter_eq_self]
        intro u hu
        have hne : u.id ≠ i := by
          intro hui
          exact hipost (hti ▸ hui ▸ List.mem_map_of_mem Task.id hu)
        simp [bne, hne]
      rw [hfpre, hft, hfpost]
  · intro hf
    simp [delete_task, hf]

/-- C5 witness: deleting task 2 from the seed collection, then reading
and deleting it again. -/
theorem delete_semantics_witness :
    seedTasks.find? (fun u => u.id == 2)
      = some ⟨2, .str "Learn Kubernetes", .str "Master container orchestration",
              .bool false, "2024-01-02T00:00:00Z"⟩ ∧
    get_task (delete_task 2 seedTasks).2 2 = taskNotFound ∧
    delete_task 2 (delete_task 2 seedTasks).2
      = (taskNotFound, (delete_task 2 seedTasks).2) := by
  have h := (delete_semantics 2 seedTasks).1
    ⟨2, .str "Learn Kubernetes", .str "Master container orchestration",
     .bool false, "2024-01-02T00:00:00Z"⟩ rfl
  exact ⟨rfl, h.2.1, h.2.2.1⟩

/-- C6 counterexample: ids ARE reused after deletion — create over the
seeds assigns id 3, deleting task 3 and creating again assigns id 3 a
second time, because the allocator is max of the LIVE ids plus one. -/
theorem id_reuse_cx :
    ((create_task (.parsed (.obj [("title", .str "a")])) "t1" seedTasks).2.map
        Task.id = [1, 2, 3]) ∧
    ((delete_task 3
        (create_task (.parsed (.obj [("title", .str "a")])) "t1" seedTasks).2).2.map
        Task.id = [1, 2]) ∧
    ((create_task (.parsed (.obj [("title", .str "b")])) "t2"
        (delete_task 3
          (create_task (.parsed (.obj [("title", .str "a")])) "t1" seedTasks).2).2).2.map
        Task.id = [1, 2, 3]) :=
  ⟨rfl, rfl, rfl⟩

/-- C6 amended: on every reachable collection the LIVE ids are pairwise
distinct, and the id the allocator would hand to the next created task
is distinct from every live id; an id freed by deletion may however be
assigned again later. -/
theorem ids_unique_of_reachable (ts : List Task) (h : Reachable ts) :
    (ts.map Task.id).Nodup ∧ nextId ts ∉ ts.map Task.id := by
  have fresh : ∀ us : List Task, nextId us ∉ us.map Task.id := by
    intro us hmem
    have h1 := le_foldr_max _ _ hmem
    simp [nextId] at h1
  refine ⟨?_, fresh ts⟩
  induction h with
  | seed => decide
  | create body now hr ih =>
    rcases create_task_state body now _ with e | ⟨t, hid, e⟩
    · rw [e]; exact ih
    · rw [e, List.map_append]
      rw [List.nodup_append]
      refine ⟨ih, List.nodup_singleton _, ?_⟩
      intro a ha hb
      rw [List.map_singleton, List.mem_singleton] at hb
      subst hb
      rw [hid] at ha
      exact fresh _ ha
  | update i body hr ih =>
    rw [update_task_map_id]
    exact ih
  | delete i hr ih =>
    rcases delete_task_state i _ with e | e
    · rw [e]; exact ih
    · rw [e]
      exact List.Nodup.sublist (List.Sublist.map _ (List.filter_sublist _)) ih

/-- C6 witness: the seed collection. -/
theorem ids_unique_of_reachable_witness :
    (seedTasks.map Task.id).Nodup ∧ nextId seedTasks ∉ seedTasks.map Task.id :=
  ids_unique_of_reachable seedTasks Reachable.seed

end App
